import Mathlib

/-!
Shallow embedding of the Option-trading repository's core logic
(symbol resolution, VWAP computation, delta and hedge selection, and the
strategy state machine) together with theorems settling the specification
claims about it.

Numeric values are modelled as exact rationals (`ℚ`); Python strings are
Lean `String`s manipulated through explicit character-list helpers so that
everything evaluates; dict fields that may be absent are `Option`s; network
calls and library primitives (HTTP fetches, `scipy`'s normal CDF, `math.log`)
are abstracted as explicit function parameters supplied by the environment.
-/

/-! ## Python numeric primitives -/

/-- Python `int(x)` on a float/rational: truncation toward zero. -/
def pyTrunc (q : ℚ) : ℤ := Int.tdiv q.num (q.den : ℤ)

/-- Python `round` on a rational: round-half-to-even to the nearest integer. -/
def roundHalfEven (q : ℚ) : ℤ :=
  let n := ⌊q⌋
  let f := q - n
  if f < 1/2 then n
  else if 1/2 < f then n + 1
  else if n % 2 = 0 then n else n + 1

/-- Python `round(x, 2)`. -/
def pyRound2 (q : ℚ) : ℚ := ((roundHalfEven (q * 100) : ℤ) : ℚ) / 100

/-- Python `round(x, 6)`. -/
def pyRound6 (q : ℚ) : ℚ := ((roundHalfEven (q * 1000000) : ℤ) : ℚ) / 1000000

/-- Python truthiness of an optional numeric field followed by `or dflt`
(`d.get(k, 0.0) or dflt`): a missing or zero value falls back. -/
def pyOrQ (x : Option ℚ) (dflt : ℚ) : ℚ :=
  match x with
  | none => dflt
  | some v => if v = 0 then dflt else v

/-! ## Python string primitives -/

/-- ASCII upper-casing of one character, as `str.upper` does for ASCII. -/
def pyUpperChar (c : Char) : Char :=
  if 97 ≤ c.toNat ∧ c.toNat ≤ 122 then Char.ofNat (c.toNat - 32) else c

/-- Python `s.upper()` (ASCII fragment, which is all the symbols use). -/
def pyUpper (s : String) : String := ⟨s.data.map pyUpperChar⟩

/-- Boolean list-prefix test. -/
def listIsPref : List Char → List Char → Bool
  | [], _ => true
  | _ :: _, [] => false
  | a :: as, b :: bs => a = b && listIsPref as bs

/-- Boolean contiguous-sublist test. -/
def listHasInfix (n : List Char) : List Char → Bool
  | [] => listIsPref n []
  | b :: bs => listIsPref n (b :: bs) || listHasInfix n bs

/-- Python `needle in haystack` on strings. -/
def pyIn (needle haystack : String) : Bool := listHasInfix needle.data haystack.data

namespace Trade

/-!
## `backend/services/trade.py` — the Strategy State Machine

`update_premium_levels` loads `trade.json`, fetches two live prices, derives
the strategy signals, possibly appends a hedge-history entry, and saves.
The pure core is embedded below; the two fetched prices are parameters.
-/

/-- One leg of `finalPair` as read from `trade.json`: the recorded entry
price (`"ltp"`, may be absent) and the VWAP status string (may be absent). -/
structure LegInput where
  ltp : Option ℚ
  vwapStatus : Option String
deriving Repr, DecidableEq

/-- A stored hedge candidate (`hedgeOptions.call_5rs[i]` etc.). -/
structure HedgeLeg where
  tradingsymbol : String
  ltp : ℚ
deriving Repr, DecidableEq

/-- The `hedgeOptions` block of `trade.json`. -/
structure HedgeOptions where
  call5rs : List HedgeLeg
  put5rs : List HedgeLeg
  hedgeCost : ℚ
deriving Repr, DecidableEq

/-- One appended hedge-history entry (timestamp omitted: it is wall-clock
metadata with no bearing on any decision). -/
structure HedgeEntry where
  call : HedgeLeg
  put : HedgeLeg
  reason : String
  total_cost : ℚ
deriving Repr, DecidableEq

/-- The slice of `trade.json` that `update_premium_levels` reads. -/
structure TradeState where
  call : LegInput
  put : LegInput
  hedgeOptions : HedgeOptions
  hedges : List HedgeEntry
deriving Repr, DecidableEq

/-- The local quantities computed in `update_premium_levels`
(trade.py lines 112–131), one field per Python local. -/
structure Signals where
  total : ℚ
  forty_percent : ℚ
  sold_call_price : ℚ
  sold_put_price : ℚ
  total_sold_premium : ℚ
  threshold_40_sold : ℚ
  live_loss : ℚ
  hedge_needed : Bool
  add_new_option : Bool
  total_strategy_loss : ℚ
  exit_strategy : Bool
deriving Repr, DecidableEq

/-- Lines 112–131 of trade.py: the derived strategy quantities.
`call_price`/`put_price` are the freshly fetched premiums; `call_ltp`/
`put_ltp` are the recorded entry prices on the two legs. -/
def computeSignals (call_price put_price : ℚ) (call_ltp put_ltp : Option ℚ) : Signals :=
  let total := call_price + put_price
  let forty_percent := pyRound2 (total * (40/100))
  let sold_call_price := pyOrQ call_ltp call_price
  let sold_put_price := pyOrQ put_ltp put_price
  let total_sold_premium := sold_call_price + sold_put_price
  let threshold_40_sold := total_sold_premium * (40/100)
  let live_loss := threshold_40_sold - total
  let hedge_needed := decide (live_loss > 0)
  let add_new_option := decide (live_loss > threshold_40_sold * (1/2))
  let total_strategy_loss := |live_loss| * 2
  let exit_strategy := decide (total_strategy_loss ≥ 1500)
  ⟨total, forty_percent, sold_call_price, sold_put_price, total_sold_premium,
   threshold_40_sold, live_loss, hedge_needed, add_new_option,
   total_strategy_loss, exit_strategy⟩

/-- The `strategyStatus` record written back to `trade.json` (rounded copies
of the signals plus the booleans), lines 140–154. -/
structure StrategyStatus where
  sold_call : ℚ
  sold_put : ℚ
  live_call : ℚ
  live_put : ℚ
  total_sold : ℚ
  threshold_40_sold : ℚ
  live_total : ℚ
  live_loss : ℚ
  hedge_needed : Bool
  add_new_option : Bool
  exit_strategy : Bool
  total_strategy_loss : ℚ
  hedge_active : Option Bool
  hedge_cost : Option ℚ
deriving Repr, DecidableEq

/-- Everything `update_premium_levels` writes back. -/
structure TradeResult where
  callPremium : ℚ
  putPremium : ℚ
  premiumDiff : ℚ
  distance : ℚ
  strategyStatus : StrategyStatus
  hedges : List HedgeEntry
deriving Repr, DecidableEq

/-- The pure core of `update_premium_levels` (trade.py lines 109–187) given
the two fetched live prices.  Returns `none` exactly when the Python code
would raise (`hedgeOptions.call_5rs[0]` / `put_5rs[0]` on an empty list in
the auto-hedge branch), in which case nothing is saved. -/
def updatePremiumLevels (call_price put_price : ℚ) (st : TradeState) :
    Option TradeResult :=
  let s := computeSignals call_price put_price st.call.ltp st.put.ltp
  let status : StrategyStatus :=
    ⟨pyRound2 s.sold_call_price, pyRound2 s.sold_put_price,
     pyRound2 call_price, pyRound2 put_price,
     pyRound2 s.total_sold_premium, pyRound2 s.threshold_40_sold,
     pyRound2 s.total, pyRound2 s.live_loss,
     s.hedge_needed, s.add_new_option, s.exit_strategy,
     pyRound2 s.total_strategy_loss, none, none⟩
  if (st.call.vwapStatus = some "Below" ∨ st.put.vwapStatus = some "Below")
      ∧ s.hedge_needed then
    match st.hedgeOptions.call5rs, st.hedgeOptions.put5rs with
    | hedge_call :: _, hedge_put :: _ =>
        some ⟨call_price, put_price, |call_price - put_price|, s.forty_percent,
              { status with hedge_active := some true,
                            hedge_cost := some st.hedgeOptions.hedgeCost },
              st.hedges ++
                [⟨hedge_call, hedge_put, "VWAP_Below", st.hedgeOptions.hedgeCost⟩]⟩
    | _, _ => none
  else
    some ⟨call_price, put_price, |call_price - put_price|, s.forty_percent,
          status, st.hedges⟩

end Trade

namespace Trade

/-- The hedge-trigger condition of the auto-hedge branch (trade.py line 161). -/
def hedgeTrigger (cp pp : ℚ) (st : TradeState) : Prop :=
  (st.call.vwapStatus = some "Below" ∨ st.put.vwapStatus = some "Below") ∧
    (computeSignals cp pp st.call.ltp st.put.ltp).hedge_needed = true

instance (cp pp : ℚ) (st : TradeState) : Decidable (hedgeTrigger cp pp st) := by
  unfold hedgeTrigger; infer_instance

end Trade

namespace Vwap

/-!
## `backend/services/compute_vwap.py` — the VWAP Engine

A raw candle is the JSON row `[time, open, high, low, close, volume]`.
Each cell is `some q` when Python `float(cell)` succeeds and `none` when it
would raise (so a malformed cell skips the candle, as the `try/except`
does); a short row models an `IndexError` the same way.
-/

/-- One raw candle row. -/
abbrev Candle := List (Option ℚ)

/-- The loop body of `compute_vwap_from_candles` (lines 329–339): parse
`c[2], c[3], c[4]` and `c[5]` (volume defaults to 0 when the row has no
sixth cell), accumulate `(num, den)`; any parse failure skips the row. -/
def vwapStep (acc : ℚ × ℚ) (c : Candle) : ℚ × ℚ :=
  match c.get? 2, c.get? 3, c.get? 4, (if 5 < c.length then (c.get? 5).join else some 0) with
  | some (some high), some (some low), some (some close), some vol =>
      (acc.1 + (high + low + close) / 3 * vol, acc.2 + vol)
  | _, _, _, _ => acc

/-- The `(num, den)` accumulator of `compute_vwap_from_candles` after its
loop (lines 327–339). -/
def vwapNumDen (candles : List Candle) : ℚ × ℚ :=
  candles.foldl vwapStep (0, 0)

/-- Embeds `compute_vwap_from_candles` (lines 324–342).  `math.isclose(den, 0.0)`
with the default `abs_tol = 0` holds only for `den = 0`, so the guard is
exactly `den = 0`. -/
def computeVwapFromCandles (candles : List Candle) : Option ℚ :=
  if candles = [] then none
  else if (vwapNumDen candles).2 = 0 then none
  else some ((vwapNumDen candles).1 / (vwapNumDen candles).2)

/-- Embeds `last_close_from_candles` (lines 344–352): last parsable close. -/
def lastCloseFromCandles (candles : List Candle) : Option ℚ :=
  candles.reverse.findSome? fun c => (c.get? 4).join

/-- Outcome of the candle sources available to `process_instrument` for one
identifier: the cached file and the three live fetch windows, each `none`
when unavailable (API failure / non-JSON / `status` false) and `some rows`
on success (`j.get("data") or []`, so success may carry an empty list). -/
structure FetchEnv where
  cached : Option (List Candle)
  fetchSession : Option (List Candle)
  fetchPrevDay : Option (List Candle)
  fetchHourly30d : Option (List Candle)
deriving Repr, DecidableEq

/-- The candle-acquisition ladder of `process_instrument` (lines 419–434):
cached candles first; if absent or empty, the 1-minute session window; if
that call *failed* (`None`), the previous trading day; if that failed too,
hourly bars over 30 days. -/
def obtainCandles (env : FetchEnv) : Option (List Candle) :=
  if env.cached = none ∨ env.cached = some [] then
    match env.fetchSession with
    | some cs => some cs
    | none =>
        match env.fetchPrevDay with
        | some cs => some cs
        | none => env.fetchHourly30d
  else env.cached

/-- The slice of a `finalPair` side that `process_instrument` reads. -/
structure SideObj where
  name : String
  expiry : String
  strikePrice : Option String
  optionType : String
  symbolToken : Option String
deriving Repr, DecidableEq

/-- Result record of `process_instrument` (line 376). -/
structure ProcResult where
  vwap : Option ℚ
  vwapStatus : String
  vwapFailureReason : Option String
  usedToken : Option String
  tokenSource : Option String
deriving Repr, DecidableEq

/-- Python truthiness of an optional string. -/
def strFalsy : Option String → Bool
  | none => true
  | some s => s = ""

/-- The part of `process_instrument` from the `if not token` check on
(lines 395–454), given the token and its source tag. -/
def processWithToken (env : FetchEnv) (token : Option String) (src : String) :
    ProcResult :=
  if strFalsy token then
    ⟨none, "unknown", some "token_not_found", token, some src⟩
  else
    match obtainCandles env with
    | none => ⟨none, "unknown", some "api_error_or_nonjson", token, some src⟩
    | some cs =>
      if cs.length = 0 then
        ⟨none, "unknown", some "no_candles", token, some src⟩
      else
        match computeVwapFromCandles cs, lastCloseFromCandles cs with
        | some v, some lc =>
            ⟨some (pyRound6 v), if v > lc then "Above" else "Below",
             none, token, some src⟩
        | _, _ =>
            ⟨none, "unknown", some "no_volume_or_bad_candles", token, some src⟩

/-- Embeds `process_instrument` (lines 371–454).  `tryToken` abstracts
`try_find_token`'s outcome (a token or `None`, plus its source tag), and
`env` abstracts the candle sources; both are I/O in the Python code.
The in-place population of `side_obj["tradingsymbol"]` does not affect the
returned record and is omitted. -/
def processInstrument (env : FetchEnv) (tryToken : Option String × String)
    (side : Option SideObj) : ProcResult :=
  match side with
  | none => ⟨none, "unknown", some "no_instrument", none, none⟩
  | some s =>
    let ts : Option String × String :=
      if strFalsy s.symbolToken then tryToken else (s.symbolToken, "trade.json")
    processWithToken env ts.1 ts.2

/-- A well-formed OHLCV bar, and its encoding as a raw candle row. -/
structure Bar where
  low : ℚ
  high : ℚ
  close : ℚ
  volume : ℚ
deriving Repr, DecidableEq

/-- Encode a well-formed bar as the JSON row `process_instrument` consumes
(timestamp and open are irrelevant to the VWAP computation). -/
def Bar.toCandle (b : Bar) : Candle :=
  [some 0, some 0, some b.high, some b.low, some b.close, some b.volume]

end Vwap

namespace Resolver

/-!
## `backend/services/compute_vwap.py` — the Symbol Resolver helpers

`normalize_expiry`, `build_symbol_variants`, `normalize_strike` and
`find_token_from_entries` (lines 69–169).  Python `float(...)` on a string
is modelled exactly over `ℚ` by a decimal parser (the binary-float
idealization used throughout this development); `str.strip`/`upper`/`lower`
are ASCII character maps.
-/

/-- ASCII lower-casing of one character. -/
def pyLowerChar (c : Char) : Char :=
  if 65 ≤ c.toNat ∧ c.toNat ≤ 90 then Char.ofNat (c.toNat + 32) else c

/-- Python `s.lower()` (ASCII fragment). -/
def pyLower (s : String) : String := ⟨s.data.map pyLowerChar⟩

/-- Python `str.strip()` whitespace. -/
def isPySpace (c : Char) : Bool :=
  c = ' ' ∨ c = '\t' ∨ c = '\n' ∨ c = '\r'

/-- Python `s.strip()`. -/
def pyStrip (cs : List Char) : List Char :=
  ((cs.dropWhile isPySpace).reverse.dropWhile isPySpace).reverse

/-- ASCII decimal digit. -/
def isDigit (c : Char) : Bool := 48 ≤ c.toNat ∧ c.toNat ≤ 57

/-- Numeric value of a digit list (most significant first). -/
def parseNat (ds : List Char) : ℕ :=
  ds.foldl (fun a c => a * 10 + (c.toNat - 48)) 0

/-- The pieces of a parsed Python float literal:
`(-1)^neg · (intPart + fracPart/10^fracLen) · 10^(±expVal)`. -/
structure FloatParts where
  neg : Bool
  intPart : ℕ
  fracPart : ℕ
  fracLen : ℕ
  expNeg : Bool
  expVal : ℕ
deriving Repr, DecidableEq

/-- Exponent suffix of a float literal. -/
def parseExpParts (neg : Bool) (ip fp fl : ℕ) (cs : List Char) :
    Option FloatParts :=
  let h := match cs with
    | '-' :: t => (true, t)
    | '+' :: t => (false, t)
    | t => (false, t)
  let eds := (h.2.span isDigit).1
  let rest := (h.2.span isDigit).2
  if eds = [] ∨ rest ≠ [] then none
  else some ⟨neg, ip, fp, fl, h.1, parseNat eds⟩

/-- Mantissa (and optional exponent) of a float literal. -/
def parseFloatBody (neg : Bool) (cs : List Char) : Option FloatParts :=
  let ids := (cs.span isDigit).1
  match (cs.span isDigit).2 with
  | [] => if ids = [] then none else some ⟨neg, parseNat ids, 0, 0, false, 0⟩
  | '.' :: r2 =>
    let fds := (r2.span isDigit).1
    if ids = [] ∧ fds = [] then none
    else
      match (r2.span isDigit).2 with
      | [] => some ⟨neg, parseNat ids, parseNat fds, fds.length, false, 0⟩
      | c :: r4 =>
        if c = 'e' ∨ c = 'E' then
          parseExpParts neg (parseNat ids) (parseNat fds) fds.length r4
        else none
  | c :: r2 =>
    if (c = 'e' ∨ c = 'E') ∧ ids ≠ [] then
      parseExpParts neg (parseNat ids) 0 0 r2
    else none

/-- Syntactic part of Python `float(s)`: `none` when it raises. -/
def parseFloatParts (s : String) : Option FloatParts :=
  match pyStrip s.data with
  | '-' :: t => parseFloatBody true t
  | '+' :: t => parseFloatBody false t
  | t => parseFloatBody false t

/-- The rational value of a parsed float literal. -/
def partsToRat (p : FloatParts) : ℚ :=
  let m : ℚ := p.intPart + (p.fracPart : ℚ) / 10 ^ p.fracLen
  let s := if p.neg then -m else m
  if p.expNeg then s / 10 ^ p.expVal else s * 10 ^ p.expVal

/-- Python `float(s)` over `ℚ`. -/
def parsePyFloat (s : String) : Option ℚ := (parseFloatParts s).map partsToRat

/-- Gregorian leap year. -/
def isLeap (y : ℕ) : Bool := y % 4 = 0 ∧ (y % 100 ≠ 0 ∨ y % 400 = 0)

/-- Days in a month, as `datetime` validates them. -/
def monthLen (y m : ℕ) : ℕ :=
  if m = 1 ∨ m = 3 ∨ m = 5 ∨ m = 7 ∨ m = 8 ∨ m = 10 ∨ m = 12 then 31
  else if m = 4 ∨ m = 6 ∨ m = 9 ∨ m = 11 then 30
  else if isLeap y then 29 else 28

/-- The `strptime` date validation. -/
def checkDate (y m d : ℕ) : Option (ℕ × ℕ × ℕ) :=
  if 1 ≤ m ∧ m ≤ 12 ∧ 1 ≤ d ∧ d ≤ monthLen y m then some (y, m, d) else none

/-- Python `strptime(e, "%Y-%m-%d")`. -/
def tryParseIso (cs : List Char) : Option (ℕ × ℕ × ℕ) :=
  let yds := (cs.span isDigit).1
  if 1 ≤ yds.length ∧ yds.length ≤ 4 then
    match (cs.span isDigit).2 with
    | '-' :: r2 =>
      let mds := (r2.span isDigit).1
      if 1 ≤ mds.length ∧ mds.length ≤ 2 then
        match (r2.span isDigit).2 with
        | '-' :: r4 =>
          let dds := (r4.span isDigit).1
          if 1 ≤ dds.length ∧ dds.length ≤ 2 ∧ (r4.span isDigit).2 = [] then
            checkDate (parseNat yds) (parseNat mds) (parseNat dds)
          else none
        | _ => none
      else none
    | _ => none
  else none

/-- Upper-case month abbreviations, in month order. -/
def monthAbbrevs : List (List Char) :=
  ["JAN".data, "FEB".data, "MAR".data, "APR".data, "MAY".data, "JUN".data,
   "JUL".data, "AUG".data, "SEP".data, "OCT".data, "NOV".data, "DEC".data]

/-- Month number of a (3-character) abbreviation. -/
def monthFromAbbrev (cs : List Char) : Option ℕ :=
  match monthAbbrevs.indexOf? cs with
  | some i => some (i + 1)
  | none => none

/-- Python `strptime(e, "%d%b%Y")` and, with `dashed`, `strptime(e, "%d-%b-%Y")`
on an already upper-cased string. -/
def tryParseDMonY (dashed : Bool) (cs : List Char) : Option (ℕ × ℕ × ℕ) :=
  let dds := (cs.span isDigit).1
  if 1 ≤ dds.length ∧ dds.length ≤ 2 then
    let r1 := (cs.span isDigit).2
    let r2 := if dashed then
        (match r1 with | '-' :: t => some t | _ => none)
      else some r1
    match r2 with
    | none => none
    | some r3 =>
      match monthFromAbbrev (r3.take 3) with
      | none => none
      | some m =>
        let r4 := r3.drop 3
        let r5 := if dashed then
            (match r4 with | '-' :: t => some t | _ => none)
          else some r4
        match r5 with
        | none => none
        | some r6 =>
          let yds := (r6.span isDigit).1
          if 1 ≤ yds.length ∧ yds.length ≤ 4 ∧ (r6.span isDigit).2 = [] then
            checkDate (parseNat yds) m (parseNat dds)
          else none
  else none

/-- Zero-padded 2-digit rendering (`strftime` `%m`/`%d`). -/
def pad2 (n : ℕ) : String := if n < 10 then "0" ++ toString n else toString n

/-- Zero-padded 4-digit rendering (`strftime` `%Y`). -/
def pad4 (n : ℕ) : String :=
  if n < 10 then "000" ++ toString n
  else if n < 100 then "00" ++ toString n
  else if n < 1000 then "0" ++ toString n
  else toString n

/-- Embeds `normalize_expiry` (lines 69–97): accepts `YYYY-MM-DD`, `DDMONYYYY`,
`DD-MON-YYYY` (tried in that order on the stripped, upper-cased input) and
renders `YYYY-MM-DD`; `None`/empty input and parse failure give `none`. -/
def normalize_expiry (expiry : Option String) : Option String :=
  match expiry with
  | none => none
  | some e0 =>
    if e0 = "" then none
    else
      let e := (pyUpper ⟨pyStrip e0.data⟩).data
      let parsed :=
        match tryParseIso e with
        | some ymd => some ymd
        | none =>
          match tryParseDMonY false e with
          | some ymd => some ymd
          | none => tryParseDMonY true e
      match parsed with
      | some (y, m, d) => some (pad4 y ++ "-" ++ pad2 m ++ "-" ++ pad2 d)
      | none => none

/-- Python `str(int(float(strike)))` with `str(strike)` fallback on failure
(lines 102–105). -/
def strikeIntStr (strike : String) : String :=
  match parsePyFloat strike with
  | some q => toString (pyTrunc q)
  | none => strike

/-- The variant strings of `build_symbol_variants` before de-duplication:
the six concatenation patterns, then their lower-cased copies
(lines 100–113). -/
def rawSymbolVariants (name expiry strike opt_type : String) : List String :=
  let e := (normalize_expiry (some expiry)).getD ""
  let strike_i := strikeIntStr strike
  let base := [name ++ e ++ strike_i ++ opt_type,
               name ++ strike_i ++ opt_type,
               name ++ opt_type ++ strike_i,
               name ++ e ++ strike_i,
               name ++ strike_i,
               strike_i ++ opt_type]
  base ++ base.map pyLower

/-- The first-occurrence de-duplication loop of `build_symbol_variants`
(lines 114–121); `seen` is the accumulated set. -/
def dedupKeepFirst (seen : List String) : List String → List String
  | [] => []
  | v :: vs =>
    if v ∈ seen then dedupKeepFirst seen vs
    else v :: dedupKeepFirst (v :: seen) vs

/-- Embeds `build_symbol_variants` (lines 99–121). -/
def build_symbol_variants (name expiry strike opt_type : String) : List String :=
  dedupKeepFirst [] (rawSymbolVariants name expiry strike opt_type)

/-- Embeds `normalize_strike` (lines 123–127): `round(float(val), 2)`, `None` on
failure. -/
def normalize_strike (v : Option String) : Option ℚ :=
  match v with
  | none => none
  | some s => (parsePyFloat s).map pyRound2

/-- One catalog entry as `find_token_from_entries` reads it.  Each field is
the first truthy value of the corresponding alias chain
(`tradingsymbol`/`symbol`/`scrip`/`name`, `symboltoken`/`token`/…,
`strike`/`strikePrice`/`strike_price`, `optionType`/`instrumenttype`/`type`). -/
structure Entry where
  tradingsymbol : Option String
  token : Option String
  strike : Option String
  optionType : Option String
deriving Repr, DecidableEq

/-- The per-entry loop of `find_token_from_entries` (lines 142–167): skip
entries without a usable symbol or token; return the token on a variant
substring hit; otherwise on a strike match return the token whether or not
the option kind agrees (the two `return` branches of lines 160–164). -/
def entryLoop (variants : List String) (targetN : Option ℚ) (opt_type : String) :
    List Entry → Option String
  | [] => none
  | ent :: rest =>
    let trad := pyUpper (ent.tradingsymbol.getD "")
    match ent.token with
    | none => entryLoop variants targetN opt_type rest
    | some tok =>
      if trad = "" ∨ tok = "" then entryLoop variants targetN opt_type rest
      else if variants.any (fun v => pyIn (pyUpper v) trad) then some tok
      else
        match normalize_strike ent.strike, targetN with
        | some es, some ts =>
          if es = ts then
            if opt_type ≠ "" ∧ pyIn (pyUpper opt_type) (pyUpper (ent.optionType.getD ""))
            then some tok
            else some tok
          else entryLoop variants targetN opt_type rest
        | _, _ => entryLoop variants targetN opt_type rest

/-- Embeds `find_token_from_entries` (lines 129–169).  The target strike is
`float(strike)` rounded to two decimals when parsable, else no strike
fallback is possible (the re-parse inside `normalize_strike` fails the
same way). -/
def find_token_from_entries (entries : List Entry)
    (name expiry strike opt_type : String) : Option String :=
  if entries = [] then none
  else entryLoop (build_symbol_variants name expiry strike opt_type)
    ((parsePyFloat strike).map pyRound2) opt_type entries

end Resolver

/-! ## Shared Python list helpers for the selector scripts -/

/-- The scan `min(..., key=f)` performs: keep the current best, replacing
it only on a strictly smaller key (so the first minimizer wins). -/
def pyMinLoop {α : Type} (f : α → ℚ) (best : α) : List α → α
  | [] => best
  | y :: ys => if f y < f best then pyMinLoop f y ys else pyMinLoop f best ys

/-- Python `min(l, key=f)`: `none` on the empty list (`ValueError`). -/
def pyMinBy {α : Type} (f : α → ℚ) : List α → Option α
  | [] => none
  | x :: xs => some (pyMinLoop f x xs)

/-- Insert behind all earlier elements with key ≤ the new key (the
stable-insert step of `list.sort(key=...)`). -/
def pyInsertSorted {α : Type} (p : ℤ × α) : List (ℤ × α) → List (ℤ × α)
  | [] => [p]
  | q :: qs => if q.1 ≤ p.1 then q :: pyInsertSorted p qs else p :: q :: qs

/-- Python's stable `list.sort(key=...)` on key-tagged pairs. -/
def pySortByKey {α : Type} (l : List (ℤ × α)) : List (ℤ × α) :=
  l.foldl (fun acc x => pyInsertSorted x acc) []

namespace OptionGreek

/-!
## `services/option.greek.py` — Delta Selector and Hedge Selector

Chain items are the option-chain rows of the upstream API; numeric fields
are `some q` when present and parsable (`get_delta`'s `try/except` turns a
missing or unparsable delta into 0.0).
-/

/-- One option-chain row, with the fields the two selector scripts read. -/
structure Item where
  delta : Option ℚ
  strikePrice : Option ℚ
  optionType : String
  ltp : Option ℚ
  tradingsymbol : String
  impliedVolatility : Option ℚ
  underlyingValue : Option ℚ
deriving Repr, DecidableEq

/-- Embeds `get_delta` (lines 32–36): `float(item.get("delta", 0.0))` with 0.0 on
any failure. -/
def get_delta (item : Item) : ℚ := item.delta.getD 0

/-- Embeds `find_nearest_delta` (lines 40–54): force the target sign (negative
for PE, positive otherwise), then take the chain entry of minimal
`|delta − target|`; `{}` (here `none`) on an empty list. -/
def find_nearest_delta (options : List Item) (target : ℚ) (opt_type : String) :
    Option Item :=
  if options = [] then none
  else
    let t := if opt_type = "PE" then -|target| else |target|
    pyMinBy (fun o => |get_delta o - t|) options

/-- The record appended for each selected hedge (lines 74–80 / 95–101). -/
structure HedgeOut where
  strikePrice : Option ℚ
  ltp : ℚ
  delta : ℚ
  optionType : String
  tradingsymbol : String
deriving Repr, DecidableEq

/-- Build one output record from a chain row. -/
def mkHedgeOut (opt_type : String) (o : Item) : HedgeOut :=
  ⟨o.strikePrice, o.ltp.getD 0, get_delta o, opt_type, o.tradingsymbol⟩

/-- The delta-sign screen of both hedge loops (lines 69–72 / 88–91): skip
positive-delta puts and negative-delta calls. -/
def eligible (opt_type : String) (o : Item) : Bool :=
  decide (¬(opt_type = "PE" ∧ 0 < get_delta o) ∧
          ¬(opt_type = "CE" ∧ get_delta o < 0))

/-- Embeds `find_nearest_5rs_hedge_options` (lines 58–103): same-kind rows whose
integer strike is sold±5 (sign-screened), topped up — when fewer than two —
from the remaining sign-screened rows by ascending integer strike distance
(stable sort), truncated to two. -/
def find_nearest_5rs_hedge_options (chain : List Item) (sold_strike : ℚ)
    (opt_type : String) : List HedgeOut :=
  let same_type := chain.filter (fun x => x.optionType = opt_type)
  let sold_int := pyTrunc sold_strike
  let hedges := (same_type.filter (fun o =>
      eligible opt_type o &&
      decide (pyTrunc (o.strikePrice.getD 0) = sold_int - 5 ∨
              pyTrunc (o.strikePrice.getD 0) = sold_int + 5))).map
    (mkHedgeOut opt_type)
  let result :=
    if hedges.length < 2 then
      let distances := (same_type.filter (eligible opt_type)).map
        (fun o => (|pyTrunc (o.strikePrice.getD 0) - sold_int|, o))
      hedges ++ ((pySortByKey distances).take (2 - hedges.length)).map
        (fun p => mkHedgeOut opt_type p.2)
    else hedges
  result.take 2

end OptionGreek

namespace OptionGreek2

/-!
## `services/option_greek2.py` — the Black–Scholes variant

`scipy.stats.norm.cdf`, `math.log` and `math.sqrt` are external library
primitives, abstracted as an explicit `Prims` record of functions supplied
by the environment; the token lookup and LTP fetch inside the hedge loop
(I/O in the source) are abstracted the same way.
-/

/-- The mathematical primitives `bs_delta` calls out to. -/
structure Prims where
  log : ℚ → ℚ
  sqrt : ℚ → ℚ
  cdf : ℚ → ℚ

/-- Embeds `bs_delta` (lines 32–37): 0 on degenerate inputs, else the CDF of d1
(minus one for a put), with `T = days/365` and
`d1 = (log(spot/strike) + (r + iv²/2)·T) / (iv·√T)`. -/
def bs_delta (pr : Prims) (spot strike : ℚ) (days_to_expiry : ℤ)
    (option_type : String) (iv r : ℚ) : ℚ :=
  if days_to_expiry ≤ 0 ∨ iv ≤ 0 ∨ spot ≤ 0 ∨ strike ≤ 0 then 0
  else
    let T : ℚ := (days_to_expiry : ℚ) / 365
    let d1 := (pr.log (spot / strike) + (r + iv ^ 2 / 2) * T) / (iv * pr.sqrt T)
    if option_type = "CE" then pr.cdf d1 else pr.cdf d1 - 1

/-- Embeds `get_delta_per_strike` (lines 39–44): the quoted delta when present and
non-zero, else the theoretical `bs_delta` with the row's implied volatility
(default 15, scaled by 100) and the fixed rate 0.07.  (A row without a
strike would raise a `KeyError` in the source; the model reads it as 0.) -/
def get_delta_per_strike (pr : Prims) (item : OptionGreek.Item) (spot : ℚ)
    (days : ℤ) : ℚ :=
  let fallback := bs_delta pr spot (item.strikePrice.getD 0) days
    item.optionType ((item.impliedVolatility.getD 15) / 100) (7/100)
  match item.delta with
  | some d => if d ≠ 0 then d else fallback
  | none => fallback

/-- Embeds `find_nearest_delta` (lines 83–97): the CE leg minimizes
`|delta − target|`, the PE leg minimizes `||delta| − target|` (the target
is used as passed, positive); `none` when either same-kind list is empty
(`min` raises `ValueError` there). -/
def find_nearest_delta (pr : Prims) (chain : List OptionGreek.Item)
    (spot : ℚ) (days : ℤ) (target_delta : ℚ) :
    Option (OptionGreek.Item × OptionGreek.Item) :=
  let ce_options := chain.filter (fun x => x.optionType = "CE")
  let pe_options := chain.filter (fun x => x.optionType = "PE")
  match pyMinBy (fun x => |get_delta_per_strike pr x spot days - target_delta|)
          ce_options,
        pyMinBy (fun x => |(|get_delta_per_strike pr x spot days|) - target_delta|)
          pe_options with
  | some ce, some pe => some (ce, pe)
  | _, _ => none

/-- The record built for each hedge leg (lines 173–180). -/
structure HedgeOut where
  strikePrice : Option ℚ
  ltp : ℚ
  delta : ℚ
  optionType : String
  tradingsymbol : String
  symbolToken : String
deriving Repr, DecidableEq

/-- Embeds `find_nearest_5rs_hedge_options` (lines 161–181): the two same-kind
rows closest in integer strike to `int(round(sold_strike))` (the sold
strike itself excluded), with no delta-sign screen; `getToken` and `getLtp`
abstract `find_token_from_candidates` and `get_ltp_from_angel`. -/
def find_nearest_5rs_hedge_options (pr : Prims)
    (getToken : Option ℚ → String) (getLtp : String → String → ℚ)
    (chain : List OptionGreek.Item) (sold_strike : ℚ) (opt_type : String)
    (spot : ℚ) (days_to_expiry : ℤ) : List HedgeOut :=
  let same_type := chain.filter (fun x => x.optionType = opt_type)
  let sold_int := roundHalfEven sold_strike
  let distances := (same_type.filter (fun o =>
      decide (pyTrunc (o.strikePrice.getD 0) ≠ sold_int))).map
    (fun o => (|pyTrunc (o.strikePrice.getD 0) - sold_int|, o))
  let closest := (pySortByKey distances).take 2
  (closest.map (fun p =>
    let token := getToken p.2.strikePrice
    let ltp := if token ≠ "" then getLtp p.2.tradingsymbol token else 0
    (⟨p.2.strikePrice, ltp, get_delta_per_strike pr p.2 spot days_to_expiry,
      opt_type, p.2.tradingsymbol, token⟩ : HedgeOut))).take 2

end OptionGreek2

/-! ## Concrete inputs used by the claim theorems -/

/-- Concrete trade state refuting C2: both entry prices 1000, live prices
25 + 25, call leg VWAP bias Below, one stored hedge candidate per side,
empty hedge history. -/
def tradeStateC2 : Trade.TradeState :=
  ⟨⟨some 1000, some "Below"⟩, ⟨some 1000, none⟩,
   ⟨[⟨"NIFTYHEDGECE", 5⟩], [⟨"NIFTYHEDGEPE", 5⟩], 10⟩, []⟩

/-- The result `update_premium_levels` produces on `tradeStateC2` with live
prices 25/25: liveLoss 750, exit threshold reached, and yet a hedge-history
entry appended. -/
def tradeResultC2 : Trade.TradeResult :=
  ⟨25, 25, 0, 20,
   ⟨1000, 1000, 25, 25, 2000, 800, 50, 750, true, true, true, 1500,
    some true, some 10⟩,
   [⟨⟨"NIFTYHEDGECE", 5⟩, ⟨"NIFTYHEDGEPE", 5⟩, "VWAP_Below", 10⟩]⟩

/-- Candle-source outcomes refuting C5: nothing cached, the session-window
fetch succeeds but returns an empty list, and the previous-day fetch would
return a non-empty series. -/
def fetchEnvC5 : Vwap.FetchEnv :=
  ⟨none, some [], some [[some 0, some 0, some 105, some 95, some 100, some 10]],
   none⟩

/-- The concrete catalog entry for the C6 witness: trading symbol `FOO`
(matching no generated variant), token `99999`, strike `26450.0`, and
option kind `PE` — disagreeing with the requested kind `CE`. -/
def entC6 : Resolver.Entry := ⟨some "FOO", some "99999", some "26450.0", some "PE"⟩

/-- Constant-zero stand-ins for the scipy/math primitives; the refuting
inputs below all carry quoted non-zero deltas, so these are never
consulted. -/
def prims0 : OptionGreek2.Prims := ⟨fun _ => 0, fun _ => 0, fun _ => 0⟩

/-- The CE row of the C7 refuting chain. -/
def itemCeC7 : OptionGreek.Item :=
  ⟨some (2/10), some 26000, "CE", none, "C", none, none⟩

/-- A PE row with delta −0.25 (distance 0.05 from the signed target −0.20). -/
def itemPeA : OptionGreek.Item :=
  ⟨some (-(25/100)), some 25000, "PE", none, "PA", none, none⟩

/-- A PE row with delta +0.18 (distance 0.38 from the signed target −0.20,
but absolute-delta distance 0.02 from +0.20). -/
def itemPeB : OptionGreek.Item :=
  ⟨some (18/100), some 24000, "PE", none, "PB", none, none⟩

/-- The refuting chain for C7. -/
def chainC7 : List OptionGreek.Item := [itemCeC7, itemPeA, itemPeB]

/-- A PE row with delta +1/2 sitting 5 strikes from the sold strike. -/
def itemPe1C8 : OptionGreek.Item :=
  ⟨some (1/2), some 24995, "PE", none, "P1", none, none⟩

/-- A PE row with delta −2/5 sitting 2000 strikes away. -/
def itemPe2C8 : OptionGreek.Item :=
  ⟨some (-(4/10)), some 27000, "PE", none, "P2", none, none⟩

/-- The refuting chain for C8. -/
def chainC8 : List OptionGreek.Item := [itemPe1C8, itemPe2C8]

/-- First hedge record the `option_greek2.py` selector produces on
`chainC8`: a PUT hedge with positive delta. -/
def hedgeOutC8a : OptionGreek2.HedgeOut := ⟨some 24995, 1, 1/2, "PE", "P1", "T"⟩

/-- Second hedge record produced on `chainC8`. -/
def hedgeOutC8b : OptionGreek2.HedgeOut :=
  ⟨some 27000, 1, -(4/10), "PE", "P2", "T"⟩
/-! # Claims -/

/-- C1: on every evaluation cycle the Strategy State Machine computes
`threshold40 = 0.40 × soldTotal`, `liveLoss = threshold40 − liveTotal`,
`hedgeNeeded ↔ liveLoss > 0`, `addNewOption ↔ liveLoss > 0.5 × threshold40`,
`totalStrategyLoss = |liveLoss| × 2`, `exitStrategy ↔ totalStrategyLoss ≥ 1500`;
and in particular soldTotal 100 with liveTotal 50 yields threshold 40,
liveLoss −10, no hedge, while soldTotal 100 with liveTotal 30 yields
liveLoss 10, hedge needed, and no add-new-option. -/
theorem claim_C1_strategy_signals (cp pp : ℚ) (cl pl : Option ℚ)
    (s : Trade.Signals) (hs : s = Trade.computeSignals cp pp cl pl) :
    s.threshold_40_sold = (40/100) * s.total_sold_premium ∧
    s.live_loss = s.threshold_40_sold - s.total ∧
    (s.hedge_needed = true ↔ 0 < s.live_loss) ∧
    (s.add_new_option = true ↔ s.threshold_40_sold * (1/2) < s.live_loss) ∧
    s.total_strategy_loss = |s.live_loss| * 2 ∧
    (s.exit_strategy = true ↔ 1500 ≤ s.total_strategy_loss) ∧
    (s.total_sold_premium = 100 → s.total = 50 →
      s.threshold_40_sold = 40 ∧ s.live_loss = -10 ∧ s.hedge_needed = false) ∧
    (s.total_sold_premium = 100 → s.total = 30 →
      s.live_loss = 10 ∧ s.hedge_needed = true ∧ s.add_new_option = false) := by
  subst hs
  simp only [Trade.computeSignals]
  refine ⟨by ring, by trivial, by simp, by simp, by trivial, by simp, ?_, ?_⟩
  · intro h1 h2
    rw [h1, h2]
    norm_num
  · intro h1 h2
    rw [h1, h2]
    norm_num

/-- Witness for C1 at concrete entry prices 60/40 and live prices 20/30
(soldTotal 100, liveTotal 50) and separately live prices 10/20
(liveTotal 30). -/
theorem claim_C1_strategy_signals_witness :
    ((Trade.computeSignals 20 30 (some 60) (some 40)).threshold_40_sold = 40 ∧
     (Trade.computeSignals 20 30 (some 60) (some 40)).live_loss = -10 ∧
     (Trade.computeSignals 20 30 (some 60) (some 40)).hedge_needed = false) ∧
    ((Trade.computeSignals 10 20 (some 60) (some 40)).live_loss = 10 ∧
     (Trade.computeSignals 10 20 (some 60) (some 40)).hedge_needed = true ∧
     (Trade.computeSignals 10 20 (some 60) (some 40)).add_new_option = false) := by
  constructor
  · have h := claim_C1_strategy_signals 20 30 (some 60) (some 40) _ rfl
    exact h.2.2.2.2.2.2.1 (by norm_num [Trade.computeSignals, pyOrQ])
      (by norm_num [Trade.computeSignals])
  · have h := claim_C1_strategy_signals 10 20 (some 60) (some 40) _ rfl
    exact h.2.2.2.2.2.2.2 (by norm_num [Trade.computeSignals, pyOrQ])
      (by norm_num [Trade.computeSignals])

/-- Counterexample to C2 as stated: with entry prices 1000/1000 and live
prices 25/25 the cycle has `exit_strategy = true` (total strategy loss is
exactly 1500) and `hedge_needed = true` with a Below bias, and the engine
STILL appends a hedge-history entry — the code never consults
`exit_strategy` before the hedge trigger. -/
theorem claim_C2_counterexample :
    (Trade.computeSignals 25 25 (some 1000) (some 1000)).exit_strategy = true ∧
    (Trade.computeSignals 25 25 (some 1000) (some 1000)).hedge_needed = true ∧
    Trade.updatePremiumLevels 25 25 tradeStateC2 = some tradeResultC2 ∧
    tradeResultC2.hedges.length = tradeStateC2.hedges.length + 1 := by
  refine ⟨?_, ?_, ?_, rfl⟩
  · simp only [Trade.computeSignals, pyOrQ]
    norm_num
  · simp only [Trade.computeSignals, pyOrQ]
    norm_num
  · simp only [Trade.updatePremiumLevels, Trade.computeSignals, pyOrQ,
      tradeStateC2, tradeResultC2]
    norm_num [pyRound2, roundHalfEven]

/-- C2 amended: the engine does not check exit status before the hedge
trigger.  On any cycle that completes, a hedge-history entry is appended
exactly when (`hedgeNeeded` and a leg's VWAP bias is Below) — irrespective
of `exitStrategy`; when the trigger does not fire the history is unchanged. -/
theorem claim_C2_amended (cp pp : ℚ) (st : Trade.TradeState)
    (r : Trade.TradeResult) (h : Trade.updatePremiumLevels cp pp st = some r) :
    (r.hedges.length = st.hedges.length + 1 ↔ Trade.hedgeTrigger cp pp st) ∧
    (¬ Trade.hedgeTrigger cp pp st → r.hedges = st.hedges) := by
  rw [Trade.updatePremiumLevels] at h
  split at h
  · rename_i hcond
    split at h
    · cases h
      refine ⟨?_, fun hneg => absurd hcond hneg⟩
      simp [Trade.hedgeTrigger, hcond]
    · cases h
  · rename_i hcond
    cases h
    refine ⟨?_, fun _ => rfl⟩
    constructor
    · intro hlen
      simp at hlen
    · intro htrig
      exact absurd htrig hcond

/-- Witness for the amended C2 at the concrete C2 state: the appended-entry
count matches the trigger exactly. -/
theorem claim_C2_amended_witness :
    (tradeResultC2.hedges.length = tradeStateC2.hedges.length + 1 ↔
      Trade.hedgeTrigger 25 25 tradeStateC2) ∧
    (¬ Trade.hedgeTrigger 25 25 tradeStateC2 →
      tradeResultC2.hedges = tradeStateC2.hedges) := by
  have heq : Trade.updatePremiumLevels 25 25 tradeStateC2 = some tradeResultC2 := by
    simp only [Trade.updatePremiumLevels, Trade.computeSignals, pyOrQ,
      tradeStateC2, tradeResultC2]
    norm_num [pyRound2, roundHalfEven]
  exact claim_C2_amended 25 25 tradeStateC2 tradeResultC2 heq

/-- C10: when neither leg carries a non-zero recorded entry price, both sold
prices fall back to the live prices, so soldTotal = liveTotal,
liveLoss = −0.6 × liveTotal, no hedge and no add-new-option can trigger on
the cycle (for non-negative live prices), and exitStrategy holds exactly
when 1.2 × liveTotal ≥ 1500. -/
theorem claim_C10_entry_price_fallback (cp pp : ℚ) (cl pl : Option ℚ)
    (hcp : 0 ≤ cp) (hpp : 0 ≤ pp)
    (hcl : cl = none ∨ cl = some 0) (hpl : pl = none ∨ pl = some 0) :
    (Trade.computeSignals cp pp cl pl).total_sold_premium
        = (Trade.computeSignals cp pp cl pl).total ∧
    (Trade.computeSignals cp pp cl pl).live_loss
        = -(6/10) * (Trade.computeSignals cp pp cl pl).total ∧
    (Trade.computeSignals cp pp cl pl).hedge_needed = false ∧
    (Trade.computeSignals cp pp cl pl).add_new_option = false ∧
    ((Trade.computeSignals cp pp cl pl).exit_strategy = true ↔
      1500 ≤ (12/10) * (Trade.computeSignals cp pp cl pl).total) := by
  have hc : pyOrQ cl cp = cp := by rcases hcl with h | h <;> simp [h, pyOrQ]
  have hp : pyOrQ pl pp = pp := by rcases hpl with h | h <;> simp [h, pyOrQ]
  have htot : 0 ≤ cp + pp := by linarith
  simp only [Trade.computeSignals, hc, hp]
  refine ⟨by ring_nf, by ring_nf, ?_, ?_, ?_⟩
  · simp only [decide_eq_false_iff_not, not_lt]
    linarith
  · simp only [decide_eq_false_iff_not, not_lt]
    linarith
  · simp only [decide_eq_true_eq, ge_iff_le]
    have habs : |(cp + pp) * (40/100) - (cp + pp)| = (6/10) * (cp + pp) := by
      rw [abs_of_nonpos (by linarith)]
      ring
    rw [habs]
    constructor <;> intro h <;> linarith

/-- Witness for C10 at live prices 625 and 625 with no recorded entry
prices: liveTotal 1250, liveLoss −750, no hedge, and the exit threshold is
reached exactly (1.2 × 1250 = 1500). -/
theorem claim_C10_entry_price_fallback_witness :
    (Trade.computeSignals 625 625 none (some 0)).total_sold_premium
        = (Trade.computeSignals 625 625 none (some 0)).total ∧
    (Trade.computeSignals 625 625 none (some 0)).live_loss
        = -(6/10) * (Trade.computeSignals 625 625 none (some 0)).total ∧
    (Trade.computeSignals 625 625 none (some 0)).hedge_needed = false ∧
    (Trade.computeSignals 625 625 none (some 0)).add_new_option = false ∧
    ((Trade.computeSignals 625 625 none (some 0)).exit_strategy = true ↔
      1500 ≤ (12/10) * (Trade.computeSignals 625 625 none (some 0)).total) :=
  claim_C10_entry_price_fallback 625 625 none (some 0) (by norm_num)
    (by norm_num) (Or.inl rfl) (Or.inr rfl)

/-- A series with zero accumulated volume has no VWAP. -/
theorem computeVwap_of_den_zero (cs : List Vwap.Candle)
    (h : (Vwap.vwapNumDen cs).2 = 0) :
    Vwap.computeVwapFromCandles cs = none := by
  unfold Vwap.computeVwapFromCandles
  split
  · rfl
  · simp [h]

/-- Contract of the post-token-resolution part of `process_instrument`:
either a numeric VWAP with Above/Below and no failure reason, or a null
VWAP with status unknown and some failure reason; an empty or zero-volume
obtained series always lands in the latter case. -/
theorem processWithToken_contract (env : Vwap.FetchEnv)
    (token : Option String) (src : String) :
    (((∃ v, (Vwap.processWithToken env token src).vwap = some v) ∧
      ((Vwap.processWithToken env token src).vwapStatus = "Above" ∨
        (Vwap.processWithToken env token src).vwapStatus = "Below") ∧
      (Vwap.processWithToken env token src).vwapFailureReason = none) ∨
     ((Vwap.processWithToken env token src).vwap = none ∧
      (Vwap.processWithToken env token src).vwapStatus = "unknown" ∧
      ∃ m, (Vwap.processWithToken env token src).vwapFailureReason = some m)) ∧
    (∀ cs, Vwap.obtainCandles env = some cs →
      (cs = [] ∨ (Vwap.vwapNumDen cs).2 = 0) →
      (Vwap.processWithToken env token src).vwap = none ∧
      (Vwap.processWithToken env token src).vwapStatus = "unknown" ∧
      (Vwap.processWithToken env token src).vwapFailureReason ≠ none) := by
  unfold Vwap.processWithToken
  split
  · exact ⟨Or.inr ⟨rfl, rfl, "token_not_found", rfl⟩,
      fun cs _ _ => ⟨rfl, rfl, by simp⟩⟩
  · split
    · rename_i hobt
      exact ⟨Or.inr ⟨rfl, rfl, "api_error_or_nonjson", rfl⟩,
        fun cs hcs _ => by rw [hobt] at hcs; cases hcs⟩
    · rename_i cs0 hobt
      split
      · exact ⟨Or.inr ⟨rfl, rfl, "no_candles", rfl⟩,
          fun cs _ _ => ⟨rfl, rfl, by simp⟩⟩
      · rename_i hlen
        split
        · rename_i v lc hv hlc
          constructor
          · left
            refine ⟨⟨pyRound6 v, rfl⟩, ?_, rfl⟩
            split
            · exact Or.inl rfl
            · exact Or.inr rfl
          · intro cs hcs hbad
            rw [hobt] at hcs
            cases hcs
            rcases hbad with h | h
            · subst h
              simp at hlen
            · rw [computeVwap_of_den_zero cs0 h] at hv
              cases hv
        · exact ⟨Or.inr ⟨rfl, rfl, "no_volume_or_bad_candles", rfl⟩,
            fun cs _ _ => ⟨rfl, rfl, by simp⟩⟩

/-- C3: `process_instrument` either returns a numeric VWAP with status
Above/Below and a null failure reason, or a null VWAP with status unknown
and a non-null failure reason; and whenever the obtained bar series is
empty or has zero total volume, the unknown case with a non-null reason
results. -/
theorem claim_C3_vwap_result_contract (env : Vwap.FetchEnv)
    (tt : Option String × String) (side : Option Vwap.SideObj) :
    (((∃ v, (Vwap.processInstrument env tt side).vwap = some v) ∧
      ((Vwap.processInstrument env tt side).vwapStatus = "Above" ∨
        (Vwap.processInstrument env tt side).vwapStatus = "Below") ∧
      (Vwap.processInstrument env tt side).vwapFailureReason = none) ∨
     ((Vwap.processInstrument env tt side).vwap = none ∧
      (Vwap.processInstrument env tt side).vwapStatus = "unknown" ∧
      ∃ m, (Vwap.processInstrument env tt side).vwapFailureReason = some m)) ∧
    (∀ cs, Vwap.obtainCandles env = some cs →
      (cs = [] ∨ (Vwap.vwapNumDen cs).2 = 0) →
      (Vwap.processInstrument env tt side).vwap = none ∧
      (Vwap.processInstrument env tt side).vwapStatus = "unknown" ∧
      (Vwap.processInstrument env tt side).vwapFailureReason ≠ none) := by
  rcases side with _ | s
  · exact ⟨Or.inr ⟨rfl, rfl, "no_instrument", rfl⟩,
      fun cs _ _ => ⟨rfl, rfl, by simp [Vwap.processInstrument]⟩⟩
  · show (((∃ v, (Vwap.processWithToken env _ _).vwap = some v) ∧ _) ∨ _) ∧ _
    exact processWithToken_contract env _ _

/-- Witness for C3: a resolved token whose every candle source succeeds but
returns an empty series yields the unknown case with reason `no_candles`. -/
theorem claim_C3_vwap_result_contract_witness :
    (Vwap.processInstrument ⟨some [], some [], none, none⟩ (none, "none")
        (some ⟨"NIFTY", "2025-12-30", some "26000", "CE", some "57000"⟩)).vwap
        = none ∧
    (Vwap.processInstrument ⟨some [], some [], none, none⟩ (none, "none")
        (some ⟨"NIFTY", "2025-12-30", some "26000", "CE", some "57000"⟩)).vwapStatus
        = "unknown" ∧
    (Vwap.processInstrument ⟨some [], some [], none, none⟩ (none, "none")
        (some ⟨"NIFTY", "2025-12-30", some "26000", "CE", some "57000"⟩)).vwapFailureReason
        ≠ none :=
  (claim_C3_vwap_result_contract ⟨some [], some [], none, none⟩ (none, "none")
      (some ⟨"NIFTY", "2025-12-30", some "26000", "CE", some "57000"⟩)).2
    [] (by simp [Vwap.obtainCandles]) (Or.inl rfl)

/-- Running the VWAP accumulator loop over encoded well-formed bars adds
the typical-price-weighted sum to `num` and the volume sum to `den`. -/
theorem foldl_vwapStep_encode (bars : List Vwap.Bar) (a d : ℚ) :
    (bars.map Vwap.Bar.toCandle).foldl Vwap.vwapStep (a, d) =
      (a + (bars.map fun b => (b.high + b.low + b.close) / 3 * b.volume).sum,
       d + (bars.map Vwap.Bar.volume).sum) := by
  induction bars generalizing a d with
  | nil => simp
  | cons b bs ih =>
    simp only [List.map_cons, List.foldl_cons, List.sum_cons]
    rw [show Vwap.vwapStep (a, d) b.toCandle
          = (a + (b.high + b.low + b.close) / 3 * b.volume, d + b.volume) from rfl]
    rw [ih]
    simp only [Prod.mk.injEq]
    constructor <;> ring

/-- C4: on a well-formed bar series with positive total volume, the
computed VWAP is exactly Σ(typical·volume)/Σ(volume) with
typical = (high+low+close)/3, and it lies within [min low, max high]. -/
theorem claim_C4_vwap_formula_and_bounds (bars : List Vwap.Bar) (lo hi : ℚ)
    (hwf : ∀ b ∈ bars, b.low ≤ b.close ∧ b.close ≤ b.high ∧ 0 ≤ b.volume)
    (hvol : 0 < (bars.map Vwap.Bar.volume).sum)
    (hlo : (bars.map Vwap.Bar.low).minimum = (lo : WithTop ℚ))
    (hhi : (bars.map Vwap.Bar.high).maximum = (hi : WithBot ℚ)) :
    Vwap.computeVwapFromCandles (bars.map Vwap.Bar.toCandle) =
      some ((bars.map fun b => (b.high + b.low + b.close) / 3 * b.volume).sum
        / (bars.map Vwap.Bar.volume).sum) ∧
    lo ≤ (bars.map fun b => (b.high + b.low + b.close) / 3 * b.volume).sum
        / (bars.map Vwap.Bar.volume).sum ∧
    (bars.map fun b => (b.high + b.low + b.close) / 3 * b.volume).sum
        / (bars.map Vwap.Bar.volume).sum ≤ hi := by
  have hne : bars ≠ [] := by
    rintro rfl
    simp at hvol
  have hnum :
      Vwap.vwapNumDen (bars.map Vwap.Bar.toCandle) =
        ((bars.map fun b => (b.high + b.low + b.close) / 3 * b.volume).sum,
         (bars.map Vwap.Bar.volume).sum) := by
    rw [Vwap.vwapNumDen, foldl_vwapStep_encode]
    simp
  have hlob : ∀ b ∈ bars, lo ≤ (b.high + b.low + b.close) / 3 := by
    intro b hb
    have h1 : lo ≤ b.low :=
      List.minimum_le_of_mem (List.mem_map_of_mem Vwap.Bar.low hb) hlo
    rcases hwf b hb with ⟨h2, h3, _⟩
    have : 3 * lo ≤ b.high + b.low + b.close := by linarith
    linarith
  have hhib : ∀ b ∈ bars, (b.high + b.low + b.close) / 3 ≤ hi := by
    intro b hb
    have h1 : b.high ≤ hi :=
      List.le_maximum_of_mem (List.mem_map_of_mem Vwap.Bar.high hb) hhi
    rcases hwf b hb with ⟨h2, h3, _⟩
    have : b.high + b.low + b.close ≤ 3 * hi := by linarith
    linarith
  have hnumlo :
      lo * (bars.map Vwap.Bar.volume).sum ≤
        (bars.map fun b => (b.high + b.low + b.close) / 3 * b.volume).sum := by
    rw [← List.sum_map_mul_left]
    refine List.sum_le_sum ?_
    intro b hb
    exact mul_le_mul_of_nonneg_right (hlob b hb) (hwf b hb).2.2
  have hnumhi :
      (bars.map fun b => (b.high + b.low + b.close) / 3 * b.volume).sum ≤
        hi * (bars.map Vwap.Bar.volume).sum := by
    rw [← List.sum_map_mul_left]
    refine List.sum_le_sum ?_
    intro b hb
    exact mul_le_mul_of_nonneg_right (hhib b hb) (hwf b hb).2.2
  refine ⟨?_, ?_, ?_⟩
  · rw [Vwap.computeVwapFromCandles, if_neg (by simpa using hne), hnum,
      if_neg (by exact ne_of_gt hvol)]
  · rw [le_div_iff₀ hvol]
    linarith
  · rw [div_le_iff₀ hvol]
    linarith

/-- Witness for C4 on two concrete bars (low/high/close/volume
95/105/100/10 and 90/100/95/5): VWAP = 1475/15 and 90 ≤ 1475/15 ≤ 105. -/
theorem claim_C4_vwap_formula_and_bounds_witness :
    Vwap.computeVwapFromCandles
        ([⟨95, 105, 100, 10⟩, ⟨90, 100, 95, 5⟩].map Vwap.Bar.toCandle) =
      some (([(⟨95, 105, 100, 10⟩ : Vwap.Bar), ⟨90, 100, 95, 5⟩].map
          fun b => (b.high + b.low + b.close) / 3 * b.volume).sum
        / ([(⟨95, 105, 100, 10⟩ : Vwap.Bar), ⟨90, 100, 95, 5⟩].map
            Vwap.Bar.volume).sum) ∧
    (90 : ℚ) ≤ ([(⟨95, 105, 100, 10⟩ : Vwap.Bar), ⟨90, 100, 95, 5⟩].map
          fun b => (b.high + b.low + b.close) / 3 * b.volume).sum
        / ([(⟨95, 105, 100, 10⟩ : Vwap.Bar), ⟨90, 100, 95, 5⟩].map
            Vwap.Bar.volume).sum ∧
    ([(⟨95, 105, 100, 10⟩ : Vwap.Bar), ⟨90, 100, 95, 5⟩].map
          fun b => (b.high + b.low + b.close) / 3 * b.volume).sum
        / ([(⟨95, 105, 100, 10⟩ : Vwap.Bar), ⟨90, 100, 95, 5⟩].map
            Vwap.Bar.volume).sum ≤ 105 :=
  claim_C4_vwap_formula_and_bounds [⟨95, 105, 100, 10⟩, ⟨90, 100, 95, 5⟩] 90 105
    (by
      intro b hb
      rcases List.mem_cons.mp hb with rfl | hb2
      · exact ⟨by norm_num, by norm_num, by norm_num⟩
      · rcases List.mem_cons.mp hb2 with rfl | hb3
        · exact ⟨by norm_num, by norm_num, by norm_num⟩
        · cases hb3)
    (by simp; norm_num)
    (by
      simp only [List.map_cons, List.map_nil, List.minimum_cons,
        List.minimum_nil, inf_top_eq, ← WithTop.coe_min, WithTop.coe_eq_coe]
      norm_num)
    (by
      simp only [List.map_cons, List.map_nil, List.maximum_cons,
        List.maximum_nil, sup_bot_eq, ← WithBot.coe_max, WithBot.coe_eq_coe]
      norm_num)

/-- Counterexample to C5 as stated: with no cached bars, a session fetch
that succeeds with an empty series, and a previous-day fetch holding a
non-empty series, the ladder stops at the empty series — the previous-day
tier is never tried even though every earlier tier failed to yield a
non-empty series, and the instrument ends in `no_candles`. -/
theorem claim_C5_counterexample :
    Vwap.obtainCandles fetchEnvC5 = some [] ∧
    fetchEnvC5.fetchPrevDay =
      some [[some 0, some 0, some 105, some 95, some 100, some 10]] ∧
    ([[some 0, some 0, some 105, some 95, some 100, some 10]] :
      List Vwap.Candle) ≠ [] ∧
    (Vwap.processInstrument fetchEnvC5 (none, "none")
        (some ⟨"NIFTY", "2025-12-30", some "26000", "CE",
          some "57000"⟩)).vwapFailureReason = some "no_candles" := by
  refine ⟨?_, rfl, by simp, ?_⟩
  · simp [Vwap.obtainCandles, fetchEnvC5]
  · simp [Vwap.processInstrument, Vwap.processWithToken, Vwap.strFalsy,
      Vwap.obtainCandles, fetchEnvC5]

/-- C5 amended: the source order is (a) cached bars, (b) session-window
1-minute bars, (c) previous-day 1-minute bars, (d) 30-day hourly bars; tier
(b) is attempted exactly when the cached bars are absent or empty, but each
later tier is attempted only when the previous *fetch call failed* (`None`)
— a fetch that succeeds with an empty series stops the ladder. -/
theorem claim_C5_amended_ladder (env : Vwap.FetchEnv) :
    (∀ cs, env.cached = some cs → cs ≠ [] →
      Vwap.obtainCandles env = some cs) ∧
    ((env.cached = none ∨ env.cached = some []) →
      (∀ cs, env.fetchSession = some cs → Vwap.obtainCandles env = some cs) ∧
      (env.fetchSession = none →
        (∀ cs, env.fetchPrevDay = some cs →
          Vwap.obtainCandles env = some cs) ∧
        (env.fetchPrevDay = none →
          Vwap.obtainCandles env = env.fetchHourly30d))) := by
  constructor
  · intro cs hc hne
    rw [Vwap.obtainCandles, if_neg, hc]
    rintro (h | h)
    · rw [hc] at h
      cases h
    · rw [hc] at h
      exact hne (Option.some_injective _ h)
  · intro hmiss
    constructor
    · intro cs hs
      rw [Vwap.obtainCandles, if_pos hmiss, hs]
    · intro hs
      constructor
      · intro cs hp
        rw [Vwap.obtainCandles, if_pos hmiss, hs, hp]
      · intro hp
        rw [Vwap.obtainCandles, if_pos hmiss, hs, hp]

/-- Witness for the amended C5: with an empty cache and a failed session
fetch, the previous-day series is used. -/
theorem claim_C5_amended_ladder_witness :
    Vwap.obtainCandles
        ⟨some [], none,
         some [[some 0, some 0, some 12, some 8, some 10, some 3]], none⟩ =
      some [[some 0, some 0, some 12, some 8, some 10, some 3]] :=
  ((claim_C5_amended_ladder
      ⟨some [], none,
       some [[some 0, some 0, some 12, some 8, some 10, some 3]], none⟩).2
    (Or.inr rfl)).2 rfl |>.1
    [[some 0, some 0, some 12, some 8, some 10, some 3]] rfl

/-- The de-duplication loop never emits a duplicate, nor anything already
seen. -/
theorem dedupKeepFirst_nodup (l : List String) :
    ∀ seen, (Resolver.dedupKeepFirst seen l).Nodup ∧
      ∀ x ∈ Resolver.dedupKeepFirst seen l, x ∉ seen := by
  induction l with
  | nil => intro seen; exact ⟨List.nodup_nil, by simp [Resolver.dedupKeepFirst]⟩
  | cons v vs ih =>
    intro seen
    by_cases hv : v ∈ seen
    · simp only [Resolver.dedupKeepFirst, if_pos hv]
      exact ih seen
    · simp only [Resolver.dedupKeepFirst, if_neg hv]
      obtain ⟨h1, h2⟩ := ih (v :: seen)
      refine ⟨List.nodup_cons.mpr ⟨?_, h1⟩, ?_⟩
      · intro hmem
        exact h2 v hmem (List.mem_cons_self v seen)
      · intro x hx
        rcases List.mem_cons.mp hx with rfl | hx2
        · exact hv
        · intro hxs
          exact h2 x hx2 (List.mem_cons_of_mem v hxs)

/-- The de-duplication loop emits a subsequence of its input (so the order
of first occurrences is preserved). -/
theorem dedupKeepFirst_sublist (l : List String) :
    ∀ seen, List.Sublist (Resolver.dedupKeepFirst seen l) l := by
  induction l with
  | nil => intro seen; simp [Resolver.dedupKeepFirst]
  | cons v vs ih =>
    intro seen
    by_cases hv : v ∈ seen
    · simp only [Resolver.dedupKeepFirst, if_pos hv]
      exact (ih seen).cons v
    · simp only [Resolver.dedupKeepFirst, if_neg hv]
      exact (ih (v :: seen)).cons₂ v

/-- Everything in the input survives de-duplication unless it was already
seen. -/
theorem mem_dedupKeepFirst (l : List String) :
    ∀ seen x, x ∈ l →
      x ∈ Resolver.dedupKeepFirst seen l ∨ x ∈ seen := by
  induction l with
  | nil => intro seen x hx; cases hx
  | cons v vs ih =>
    intro seen x hx
    by_cases hv : v ∈ seen
    · simp only [Resolver.dedupKeepFirst, if_pos hv]
      rcases List.mem_cons.mp hx with rfl | hx2
      · exact Or.inr hv
      · exact ih seen x hx2
    · simp only [Resolver.dedupKeepFirst, if_neg hv]
      rcases List.mem_cons.mp hx with rfl | hx2
      · exact Or.inl (List.mem_cons_self _ _)
      · rcases ih (v :: seen) x hx2 with h | h
        · exact Or.inl (List.mem_cons_of_mem v h)
        · rcases List.mem_cons.mp h with rfl | h2
          · exact Or.inl (List.mem_cons_self _ _)
          · exact Or.inr h2

/-- C9: symbol-variant generation is a pure deterministic function of its
four inputs (two calls on identical inputs give identical lists — in this
embedding a definitional equality, recorded as the first conjunct), and
the returned list is duplicate-free, is a subsequence of the raw
generation order (the six patterns followed by their lower-cased copies),
and retains every generated variant. -/
theorem claim_C9_symbol_variants (name expiry strike opt_type : String) :
    Resolver.build_symbol_variants name expiry strike opt_type
      = Resolver.build_symbol_variants name expiry strike opt_type ∧
    (Resolver.build_symbol_variants name expiry strike opt_type).Nodup ∧
    List.Sublist (Resolver.build_symbol_variants name expiry strike opt_type)
      (Resolver.rawSymbolVariants name expiry strike opt_type) ∧
    ∀ v ∈ Resolver.rawSymbolVariants name expiry strike opt_type,
      v ∈ Resolver.build_symbol_variants name expiry strike opt_type := by
  refine ⟨rfl, ?_, ?_, ?_⟩
  · exact (dedupKeepFirst_nodup _ []).1
  · exact dedupKeepFirst_sublist _ []
  · intro v hv
    rcases mem_dedupKeepFirst _ [] v hv with h | h
    · exact h
    · cases h

/-- C9 witness: on concrete inputs (with an unparsable expiry and strike,
exercising both fallbacks) the generated list is duplicate-free and
contains the name+strike+kind variant. -/
theorem claim_C9_symbol_variants_witness :
    (Resolver.build_symbol_variants "NIFTY" "E" "X" "CE").Nodup ∧
    "NIFTYXCE" ∈ Resolver.build_symbol_variants "NIFTY" "E" "X" "CE" := by
  have h := claim_C9_symbol_variants "NIFTY" "E" "X" "CE"
  exact ⟨h.2.1, h.2.2.2 "NIFTYXCE" (by decide)⟩

/-- On a one-entry source with usable symbol and token fields, the entry
loop reduces to: variant hit, else strike comparison. -/
theorem entryLoop_single (variants : List String) (targetN : Option ℚ)
    (opt_type : String) (ent : Resolver.Entry) (tok : String)
    (htok : ent.token = some tok) (htokne : tok ≠ "")
    (htrad : pyUpper (ent.tradingsymbol.getD "") ≠ "") :
    Resolver.entryLoop variants targetN opt_type [ent] =
      if (variants.any fun v =>
            pyIn (pyUpper v) (pyUpper (ent.tradingsymbol.getD ""))) = true
      then some tok
      else
        match Resolver.normalize_strike ent.strike, targetN with
        | some es, some ts => if es = ts then some tok else none
        | _, _ => none := by
  simp only [Resolver.entryLoop, htok]
  rw [if_neg (by
    rintro (h | h)
    · exact htrad h
    · exact htokne h)]
  by_cases hany : (variants.any fun v =>
      pyIn (pyUpper v) (pyUpper (ent.tradingsymbol.getD ""))) = true
  · rw [if_pos hany, if_pos hany]
  · rw [if_neg hany, if_neg hany]
    rcases Resolver.normalize_strike ent.strike with _ | es <;>
      rcases targetN with _ | ts
    · rfl
    · rfl
    · rfl
    · show (if es = ts then _ else _) = (if es = ts then some tok else none)
      by_cases he : es = ts
      · rw [if_pos he, if_pos he]
        exact ite_self _
      · rw [if_neg he, if_neg he]

/-- C6: within one lookup source, an entry with a usable trading symbol and
token matches exactly when some generated variant occurs (case-insensitively)
inside its trading symbol, or its strike rounded to two decimals equals the
target strike rounded to two decimals; and on a strike match the token is
returned with no condition on the entry's option kind (the theorem places
no constraint relating `ent.optionType` and `kind`). -/
theorem claim_C6_entry_match (ent : Resolver.Entry)
    (name expiry strike kind tok : String)
    (htok : ent.token = some tok) (htokne : tok ≠ "")
    (htrad : pyUpper (ent.tradingsymbol.getD "") ≠ "") :
    (Resolver.find_token_from_entries [ent] name expiry strike kind = some tok ↔
      (((Resolver.build_symbol_variants name expiry strike kind).any
          fun v => pyIn (pyUpper v) (pyUpper (ent.tradingsymbol.getD ""))) = true ∨
        ∃ q, Resolver.normalize_strike ent.strike = some q ∧
          (Resolver.parsePyFloat strike).map pyRound2 = some q)) ∧
    (∀ q, Resolver.normalize_strike ent.strike = some q →
      (Resolver.parsePyFloat strike).map pyRound2 = some q →
      Resolver.find_token_from_entries [ent] name expiry strike kind = some tok) := by
  rw [Resolver.find_token_from_entries, if_neg (by simp),
    entryLoop_single _ _ _ ent tok htok htokne htrad]
  by_cases hany : ((Resolver.build_symbol_variants name expiry strike kind).any
      fun v => pyIn (pyUpper v) (pyUpper (ent.tradingsymbol.getD ""))) = true
  · rw [if_pos hany]
    exact ⟨by simp [hany], fun q _ _ => rfl⟩
  · rw [if_neg hany]
    rcases hns : Resolver.normalize_strike ent.strike with _ | es
    · constructor
      · constructor
        · intro h
          exact nomatch h
        · rintro (h | ⟨q, h1, _⟩)
          · exact absurd h hany
          · exact nomatch h1
      · intro q h1 _
        exact nomatch h1
    · rcases hts : (Resolver.parsePyFloat strike).map pyRound2 with _ | ts
      · constructor
        · constructor
          · intro h
            exact nomatch h
          · rintro (h | ⟨q, _, h2⟩)
            · exact absurd h hany
            · exact nomatch h2
        · intro q _ h2
          exact nomatch h2
      · by_cases he : es = ts
        · refine ⟨⟨fun _ => Or.inr ⟨ts, by rw [he], rfl⟩, fun _ => ?_⟩,
            fun q _ _ => ?_⟩
          · show (if es = ts then some tok else none) = some tok
            rw [if_pos he]
          · show (if es = ts then some tok else none) = some tok
            rw [if_pos he]
        · refine ⟨⟨fun h => ?_, ?_⟩, fun q h1 h2 => ?_⟩
          · have h' : (if es = ts then some tok else none) = some tok := h
            rw [if_neg he] at h'
            exact nomatch h'
          · rintro (h | ⟨q, h1, h2⟩)
            · exact absurd h hany
            · cases h1
              cases h2
              exact absurd rfl he
          · cases h1
            cases h2
            exact absurd rfl he

/-- C6 witness: the strike fallback fires on numerically equal strikes
(`26450.0` vs `26450.00`) and returns the token although the entry is a PE
and the request asks for a CE. -/
theorem claim_C6_entry_match_witness :
    Resolver.find_token_from_entries [entC6] "BANK" "E" "26450.00" "CE"
      = some "99999" ∧ entC6.optionType = some "PE" := by
  have hns : Resolver.normalize_strike entC6.strike = some 26450 := by
    have hp : Resolver.parseFloatParts "26450.0"
        = some ⟨false, 26450, 0, 1, false, 0⟩ := by decide
    simp only [entC6, Resolver.normalize_strike, Resolver.parsePyFloat, hp,
      Option.map_some]
    norm_num [Resolver.partsToRat, pyRound2, roundHalfEven]
  have hts : (Resolver.parsePyFloat "26450.00").map pyRound2 = some 26450 := by
    have hp : Resolver.parseFloatParts "26450.00"
        = some ⟨false, 26450, 0, 2, false, 0⟩ := by decide
    simp only [Resolver.parsePyFloat, hp, Option.map_some]
    norm_num [Resolver.partsToRat, pyRound2, roundHalfEven]
  exact ⟨(claim_C6_entry_match entC6 "BANK" "E" "26450.00" "CE" "99999" rfl
      (by decide) (by decide)).2 26450 hns hts, rfl⟩

/-- The `min(..., key=f)` scan keeps its initial candidate or picks a list
element. -/
theorem pyMinLoop_eq_or_mem {α : Type} (f : α → ℚ) (l : List α) :
    ∀ best, pyMinLoop f best l = best ∨ pyMinLoop f best l ∈ l := by
  induction l with
  | nil => intro best; exact Or.inl rfl
  | cons y ys ih =>
    intro best
    have hstep : pyMinLoop f best (y :: ys)
        = if f y < f best then pyMinLoop f y ys else pyMinLoop f best ys := rfl
    rw [hstep]
    by_cases hlt : f y < f best
    · rw [if_pos hlt]
      rcases ih y with h | h
      · refine Or.inr ?_
        rw [h]
        exact List.mem_cons_self _ _
      · exact Or.inr (List.mem_cons_of_mem _ h)
    · rw [if_neg hlt]
      rcases ih best with h | h
      · exact Or.inl h
      · exact Or.inr (List.mem_cons_of_mem _ h)

/-- The `min(..., key=f)` scan yields a key no larger than the initial
candidate's and than any list element's. -/
theorem pyMinLoop_le {α : Type} (f : α → ℚ) (l : List α) :
    ∀ best, f (pyMinLoop f best l) ≤ f best ∧
      ∀ o ∈ l, f (pyMinLoop f best l) ≤ f o := by
  induction l with
  | nil => intro best; exact ⟨le_refl _, by simp⟩
  | cons y ys ih =>
    intro best
    have hstep : pyMinLoop f best (y :: ys)
        = if f y < f best then pyMinLoop f y ys else pyMinLoop f best ys := rfl
    rw [hstep]
    by_cases hlt : f y < f best
    · rw [if_pos hlt]
      obtain ⟨h1, h2⟩ := ih y
      refine ⟨le_trans h1 (le_of_lt hlt), ?_⟩
      intro o ho
      rcases List.mem_cons.mp ho with rfl | ho2
      · exact h1
      · exact h2 o ho2
    · rw [if_neg hlt]
      obtain ⟨h1, h2⟩ := ih best
      refine ⟨h1, ?_⟩
      intro o ho
      rcases List.mem_cons.mp ho with rfl | ho2
      · exact le_trans h1 (le_of_not_lt hlt)
      · exact h2 o ho2

/-- Python `min(l, key=f)` on a non-empty list returns a member achieving the
minimal key. -/
theorem pyMinBy_spec {α : Type} (f : α → ℚ) (l : List α) (hne : l ≠ []) :
    ∃ r, pyMinBy f l = some r ∧ r ∈ l ∧ ∀ o ∈ l, f r ≤ f o := by
  cases l with
  | nil => exact absurd rfl hne
  | cons x xs =>
    refine ⟨pyMinLoop f x xs, rfl, ?_, ?_⟩
    · rcases pyMinLoop_eq_or_mem f xs x with h | h
      · rw [h]
        exact List.mem_cons_self _ _
      · exact List.mem_cons_of_mem _ h
    · intro o ho
      rcases List.mem_cons.mp ho with h | ho2
      · rw [h]
        exact (pyMinLoop_le f xs x).1
      · exact (pyMinLoop_le f xs x).2 o ho2

/-- Python `min` over a two-element list picks the second exactly on a strictly
smaller key. -/
theorem pyMinBy_pair {α : Type} (f : α → ℚ) (a b : α) (h : f b < f a) :
    pyMinBy f [a, b] = some b := by
  show some (if f b < f a then pyMinLoop f b [] else pyMinLoop f a []) = some b
  rw [if_pos h]
  rfl

/-- Counterexample to C7 as stated: the `option_greek2.py` selector compares
the PUT leg on `||delta| − target|` against the positive target, so on this
chain it returns the PE with delta +0.18 — an entry with positive delta for
a PUT — although the PE with delta −0.25 is strictly closer to the signed
target −0.20. -/
theorem claim_C7_counterexample :
    OptionGreek2.find_nearest_delta prims0 chainC7 25000 5 (2/10)
      = some (itemCeC7, itemPeB) ∧
    OptionGreek2.get_delta_per_strike prims0 itemPeB 25000 5 = 18/100 ∧
    0 < OptionGreek2.get_delta_per_strike prims0 itemPeB 25000 5 ∧
    |OptionGreek2.get_delta_per_strike prims0 itemPeA 25000 5 - (-(2/10))| <
      |OptionGreek2.get_delta_per_strike prims0 itemPeB 25000 5 - (-(2/10))| := by
  have hB : OptionGreek2.get_delta_per_strike prims0 itemPeB 25000 5 = 18/100 := by
    norm_num [OptionGreek2.get_delta_per_strike, itemPeB]
  have hA : OptionGreek2.get_delta_per_strike prims0 itemPeA 25000 5
      = -(25/100) := by
    norm_num [OptionGreek2.get_delta_per_strike, itemPeA]
  have hkey : |(|OptionGreek2.get_delta_per_strike prims0 itemPeB 25000 5|)
        - 2/10| <
      |(|OptionGreek2.get_delta_per_strike prims0 itemPeA 25000 5|) - 2/10| := by
    rw [hA, hB, abs_of_nonneg (by norm_num : (0:ℚ) ≤ 18/100),
      abs_of_nonpos (by norm_num : (-(25/100):ℚ) ≤ 0),
      show (18/100 : ℚ) - 2/10 = -(1/50) by norm_num,
      show (-(-(25/100)) : ℚ) - 2/10 = 1/20 by norm_num, abs_neg,
      abs_of_nonneg (by norm_num : (0:ℚ) ≤ 1/50),
      abs_of_nonneg (by norm_num : (0:ℚ) ≤ 1/20)]
    norm_num
  refine ⟨?_, hB, by rw [hB]; norm_num, ?_⟩
  · simp only [OptionGreek2.find_nearest_delta]
    rw [show chainC7.filter (fun x => x.optionType = "CE") = [itemCeC7] from rfl,
      show chainC7.filter (fun x => x.optionType = "PE") = [itemPeA, itemPeB]
        from rfl,
      pyMinBy_pair _ itemPeA itemPeB hkey]
    rfl
  · rw [hA, hB,
      show (-(25/100) : ℚ) - -(2/10) = -(1/20) by norm_num,
      show (18/100 : ℚ) - -(2/10) = 19/50 by norm_num, abs_neg,
      abs_of_nonneg (by norm_num : (0:ℚ) ≤ 1/20),
      abs_of_nonneg (by norm_num : (0:ℚ) ≤ 19/50)]
    norm_num

/-- C7 amended: `option.greek.py`'s selector forces the signed target
(negative for PE, positive otherwise) and returns a chain member whose
signed delta minimizes `|delta − signedTarget|`.  `option_greek2.py`'s
selector does the same for the CALL leg against the target as passed, but
for the PUT leg it minimizes `||delta| − target|` against the positive
target — it does not force a negative target nor compare on the signed
delta. -/
theorem claim_C7_amended :
    (∀ (options : List OptionGreek.Item) (target : ℚ) (opt_type : String),
      options ≠ [] →
      ∃ r, OptionGreek.find_nearest_delta options target opt_type = some r ∧
        r ∈ options ∧
        ∀ o ∈ options,
          |OptionGreek.get_delta r -
            (if opt_type = "PE" then -|target| else |target|)| ≤
          |OptionGreek.get_delta o -
            (if opt_type = "PE" then -|target| else |target|)|) ∧
    (∀ (pr : OptionGreek2.Prims) (chain : List OptionGreek.Item)
        (spot : ℚ) (days : ℤ) (target : ℚ),
      chain.filter (fun x => x.optionType = "CE") ≠ [] →
      chain.filter (fun x => x.optionType = "PE") ≠ [] →
      ∃ ce pe,
        OptionGreek2.find_nearest_delta pr chain spot days target
          = some (ce, pe) ∧
        ce ∈ chain.filter (fun x => x.optionType = "CE") ∧
        pe ∈ chain.filter (fun x => x.optionType = "PE") ∧
        (∀ o ∈ chain.filter (fun x => x.optionType = "CE"),
          |OptionGreek2.get_delta_per_strike pr ce spot days - target| ≤
          |OptionGreek2.get_delta_per_strike pr o spot days - target|) ∧
        (∀ o ∈ chain.filter (fun x => x.optionType = "PE"),
          |(|OptionGreek2.get_delta_per_strike pr pe spot days|) - target| ≤
          |(|OptionGreek2.get_delta_per_strike pr o spot days|) - target|)) := by
  constructor
  · intro options target opt_type hne
    rw [OptionGreek.find_nearest_delta, if_neg hne]
    exact pyMinBy_spec _ options hne
  · intro pr chain spot days target hce hpe
    obtain ⟨ce, hce1, hce2, hce3⟩ :=
      pyMinBy_spec (fun x =>
        |OptionGreek2.get_delta_per_strike pr x spot days - target|)
        (chain.filter (fun x => x.optionType = "CE")) hce
    obtain ⟨pe, hpe1, hpe2, hpe3⟩ :=
      pyMinBy_spec (fun x =>
        |(|OptionGreek2.get_delta_per_strike pr x spot days|) - target|)
        (chain.filter (fun x => x.optionType = "PE")) hpe
    refine ⟨ce, pe, ?_, hce2, hpe2, hce3, hpe3⟩
    rw [OptionGreek2.find_nearest_delta]
    rw [hce1, hpe1]

/-- Witness for the amended C7 on the concrete C7 chain: both selectors
return members achieving their respective minimal distances. -/
theorem claim_C7_amended_witness :
    (∃ r, OptionGreek.find_nearest_delta [itemPeA, itemPeB] (2/10) "PE"
        = some r ∧ r ∈ [itemPeA, itemPeB] ∧
      ∀ o ∈ [itemPeA, itemPeB],
        |OptionGreek.get_delta r -
          (if "PE" = "PE" then -|(2 : ℚ)/10| else |(2 : ℚ)/10|)| ≤
        |OptionGreek.get_delta o -
          (if "PE" = "PE" then -|(2 : ℚ)/10| else |(2 : ℚ)/10|)|) ∧
    (∃ ce pe,
      OptionGreek2.find_nearest_delta prims0 chainC7 25000 5 (2/10)
        = some (ce, pe) ∧
      ce ∈ chainC7.filter (fun x => x.optionType = "CE") ∧
      pe ∈ chainC7.filter (fun x => x.optionType = "PE") ∧
      (∀ o ∈ chainC7.filter (fun x => x.optionType = "CE"),
        |OptionGreek2.get_delta_per_strike prims0 ce 25000 5 - 2/10| ≤
        |OptionGreek2.get_delta_per_strike prims0 o 25000 5 - 2/10|) ∧
      (∀ o ∈ chainC7.filter (fun x => x.optionType = "PE"),
        |(|OptionGreek2.get_delta_per_strike prims0 pe 25000 5|) - 2/10| ≤
        |(|OptionGreek2.get_delta_per_strike prims0 o 25000 5|) - 2/10|)) :=
  ⟨claim_C7_amended.1 [itemPeA, itemPeB] (2/10) "PE" (by simp),
   claim_C7_amended.2 prims0 chainC7 25000 5 (2/10)
     (by simp [chainC7, itemCeC7, itemPeA, itemPeB])
     (by simp [chainC7, itemCeC7, itemPeA, itemPeB])⟩

/-- Counterexample to C8 as stated: the `option_greek2.py` hedge selector
has no delta-sign screen, so on this chain its closest-strike pick for the
PUT side is an entry with delta +1/2 — a positive-delta PUT hedge, which C8
says is never returned. -/
theorem claim_C8_counterexample :
    OptionGreek2.find_nearest_5rs_hedge_options prims0 (fun _ => "T")
        (fun _ _ => 1) chainC8 25000 "PE" 25000 5
      = [hedgeOutC8a, hedgeOutC8b] ∧
    hedgeOutC8a.optionType = "PE" ∧ 0 < hedgeOutC8a.delta := by
  have hsold : roundHalfEven (25000 : ℚ) = 25000 := by
    norm_num [roundHalfEven]
  have ht1 : pyTrunc (24995 : ℚ) = 24995 := by
    norm_num [pyTrunc]
  have ht2 : pyTrunc (27000 : ℚ) = 27000 := by
    norm_num [pyTrunc]
  refine ⟨?_, rfl, by norm_num [hedgeOutC8a]⟩
  norm_num [OptionGreek2.find_nearest_5rs_hedge_options, chainC8, itemPe1C8,
    itemPe2C8, hedgeOutC8a, hedgeOutC8b, hsold, ht1, ht2, pySortByKey,
    pyInsertSorted, OptionGreek2.get_delta_per_strike]
  decide

/-- Stable insertion adds exactly the inserted pair. -/
theorem mem_pyInsertSorted {α : Type} (p q : ℤ × α) :
    ∀ l, q ∈ pyInsertSorted p l → q = p ∨ q ∈ l := by
  intro l
  induction l with
  | nil =>
    intro h
    simpa [pyInsertSorted] using h
  | cons a as ih =>
    intro h
    simp only [pyInsertSorted] at h
    split at h
    · rcases List.mem_cons.mp h with rfl | h2
      · exact Or.inr (List.mem_cons_self _ _)
      · rcases ih h2 with h3 | h3
        · exact Or.inl h3
        · exact Or.inr (List.mem_cons_of_mem _ h3)
    · rcases List.mem_cons.mp h with rfl | h2
      · exact Or.inl rfl
      · exact Or.inr h2

/-- Elements of the sorted accumulator come from the accumulator or the
remaining input. -/
theorem mem_pySortByKey_aux {α : Type} (l : List (ℤ × α)) :
    ∀ acc q, q ∈ l.foldl (fun acc x => pyInsertSorted x acc) acc →
      q ∈ acc ∨ q ∈ l := by
  induction l with
  | nil => intro acc q h; exact Or.inl h
  | cons x xs ih =>
    intro acc q h
    rcases ih (pyInsertSorted x acc) q h with h2 | h2
    · rcases mem_pyInsertSorted x q acc h2 with rfl | h3
      · exact Or.inr (List.mem_cons_self _ _)
      · exact Or.inl h3
    · exact Or.inr (List.mem_cons_of_mem _ h2)

/-- The stable sort emits only input elements. -/
theorem mem_pySortByKey {α : Type} (l : List (ℤ × α)) (q : ℤ × α) :
    q ∈ pySortByKey l → q ∈ l := by
  intro h
  rcases mem_pySortByKey_aux l [] q h with h2 | h2
  · cases h2
  · exact h2

/-- An entry that passed the delta-sign screen has a kind-conforming
delta. -/
theorem eligible_sign (opt_type : String) (o : OptionGreek.Item)
    (he : OptionGreek.eligible opt_type o = true) :
    (opt_type = "PE" → OptionGreek.get_delta o ≤ 0) ∧
    (opt_type = "CE" → 0 ≤ OptionGreek.get_delta o) := by
  obtain ⟨h1, h2⟩ := of_decide_eq_true he
  constructor
  · intro hPE
    exact le_of_not_lt (fun hpos => h1 ⟨hPE, hpos⟩)
  · intro hCE
    exact le_of_not_lt (fun hneg => h2 ⟨hCE, hneg⟩)

/-- C8 amended: both hedge selectors return at most two entries, and
`option.greek.py`'s never returns an entry whose delta sign contradicts its
kind (in the ±5 match and in the closest-distance fallback alike); but
`option_greek2.py`'s selector applies no sign screen at all and can return
sign-contradicting hedges. -/
theorem claim_C8_amended :
    (∀ (chain : List OptionGreek.Item) (sold_strike : ℚ) (opt_type : String),
      (OptionGreek.find_nearest_5rs_hedge_options chain sold_strike
        opt_type).length ≤ 2 ∧
      ∀ h ∈ OptionGreek.find_nearest_5rs_hedge_options chain sold_strike
          opt_type,
        (opt_type = "PE" → h.delta ≤ 0) ∧ (opt_type = "CE" → 0 ≤ h.delta)) ∧
    (∀ (pr : OptionGreek2.Prims) (getToken : Option ℚ → String)
        (getLtp : String → String → ℚ) (chain : List OptionGreek.Item)
        (sold_strike : ℚ) (opt_type : String) (spot : ℚ) (days : ℤ),
      (OptionGreek2.find_nearest_5rs_hedge_options pr getToken getLtp chain
        sold_strike opt_type spot days).length ≤ 2) := by
  constructor
  · intro chain sold_strike opt_type
    constructor
    · simp only [OptionGreek.find_nearest_5rs_hedge_options]
      rw [List.length_take]
      exact min_le_left _ _
    · intro h hmem
      simp only [OptionGreek.find_nearest_5rs_hedge_options] at hmem
      have hmem2 := List.take_subset _ _ hmem
      split at hmem2
      · rcases List.mem_append.mp hmem2 with hA | hB
        · rcases List.mem_map.mp hA with ⟨o, ho, rfl⟩
          have hf := (List.mem_filter.mp ho).2
          rw [Bool.and_eq_true] at hf
          exact eligible_sign opt_type o hf.1
        · rcases List.mem_map.mp hB with ⟨p, hp, rfl⟩
          have hp3 := mem_pySortByKey _ _ (List.take_subset _ _ hp)
          rcases List.mem_map.mp hp3 with ⟨o, ho, rfl⟩
          exact eligible_sign opt_type o (List.mem_filter.mp ho).2
      · rcases List.mem_map.mp hmem2 with ⟨o, ho, rfl⟩
        have hf := (List.mem_filter.mp ho).2
        rw [Bool.and_eq_true] at hf
        exact eligible_sign opt_type o hf.1
  · intro pr getToken getLtp chain sold_strike opt_type spot days
    simp only [OptionGreek2.find_nearest_5rs_hedge_options]
    rw [List.length_take]
    exact min_le_left _ _

/-- Witness for the amended C8: on a one-row PE chain (delta −3/10, strike
25005) against sold strike 25000 the selector returns at most two records
and its first record's delta is non-positive. -/
theorem claim_C8_amended_witness :
    (OptionGreek.find_nearest_5rs_hedge_options
      [⟨some (-(3/10)), some 25005, "PE", some 7, "PW", none, none⟩]
      25000 "PE").length ≤ 2 ∧
    ((⟨some 25005, 7, -(3/10), "PE", "PW"⟩ : OptionGreek.HedgeOut).delta ≤ 0) := by
  have h := claim_C8_amended.1
    [⟨some (-(3/10)), some 25005, "PE", some 7, "PW", none, none⟩] 25000 "PE"
  refine ⟨h.1, ?_⟩
  have ht : pyTrunc (25005 : ℚ) = 25005 := by norm_num [pyTrunc]
  have hs : pyTrunc (25000 : ℚ) = 25000 := by norm_num [pyTrunc]
  have hres : OptionGreek.find_nearest_5rs_hedge_options
        [⟨some (-(3/10)), some 25005, "PE", some 7, "PW", none, none⟩]
        25000 "PE"
      = [⟨some 25005, 7, -(3/10), "PE", "PW"⟩,
         ⟨some 25005, 7, -(3/10), "PE", "PW"⟩] := by
    norm_num [OptionGreek.find_nearest_5rs_hedge_options, OptionGreek.eligible,
      OptionGreek.get_delta, OptionGreek.mkHedgeOut, ht, hs, pySortByKey,
      pyInsertSorted, List.filter_cons, OptionGreek.HedgeOut.mk.injEq,
      (by decide : ¬("PE" : String) = "CE")]
  have hmem : (⟨some 25005, 7, -(3/10), "PE", "PW"⟩ : OptionGreek.HedgeOut) ∈
      OptionGreek.find_nearest_5rs_hedge_options
        [⟨some (-(3/10)), some 25005, "PE", some 7, "PW", none, none⟩]
        25000 "PE" := by
    rw [hres]
    exact List.mem_cons_self _ _
  exact (h.2 _ hmem).1 rfl
